import Mathlib

/-
Verification of the public-ip lookup library.

The embedding below translates the orchestration code of the repository
(source/index.js, the browser query module, and the browser utils module)
into executable Lean definitions.  External collaborators (node's net
validators, the fetch transport, the dns-socket transport, the static
configuration lists of constants.js, and the missing core.js) are either
modelled from their documented behaviour or passed in as explicit
parameters ("worlds"), so that every run of the orchestration logic is a
pure function of those inputs.
-/

set_option autoImplicit false

namespace PublicIp

/-! ### Character-list utilities

These model the anchored regular expressions of node's `net.isIPv4` and
`net.isIPv6`, the external validators consumed by `validateIp`. -/

/-- Split a list of characters on a separator.  Groups never contain the
separator and the result is never empty (splitting the empty list yields
one empty group), matching the semantics of splitting a string on a
single-character separator. -/
def splitChar (sep : Char) : List Char → List (List Char)
  | [] => [[]]
  | c :: rest =>
    match splitChar sep rest with
    | [] => [[]]
    | g :: gs => if c = sep then [] :: g :: gs else (c :: g) :: gs

/-- Return the characters before the first occurrence of the separator
and, when the separator occurs at all, the characters after it. -/
def splitFirst (sep : Char) : List Char → List Char × Option (List Char)
  | [] => ([], none)
  | c :: rest =>
    if c = sep then ([], some rest)
    else
      let p := splitFirst sep rest
      (c :: p.1, p.2)

/-- Locate the first occurrence of two consecutive colons, returning the
characters before and after that occurrence. -/
def splitDoubleColon : List Char → Option (List Char × List Char)
  | ':' :: ':' :: rest => some ([], rest)
  | c :: rest =>
    match splitDoubleColon rest with
    | some p => some (c :: p.1, p.2)
    | none => none
  | [] => none

/-! ### Modelled node validators

`validateIp` in the repository delegates to `isIPv4` and `isIPv6` from
`node:net`.  These are modelled from node's documented anchored regular
expressions: an IPv4 address is four dot-separated decimal octets (no
leading zeros, each at most 255); an IPv6 address is eight colon-separated
hex groups, or fewer groups with a single `::` compression, the final two
groups optionally written as an embedded IPv4 quad, optionally followed by
a `%zone` suffix. -/

/-- Decimal value of a digit string. -/
def decValue (g : List Char) : Nat :=
  g.foldl (fun n c => 10 * n + (c.toNat - 48)) 0

/-- Accept one IPv4 octet: one to three decimal digits, no leading zero
unless the octet is exactly "0", and value at most 255. -/
def isV4Seg (g : List Char) : Bool :=
  !g.isEmpty && decide (g.length ≤ 3) && g.all Char.isDigit
    && (g.length == 1 || !(g.headD ' ' == '0'))
    && decide (decValue g ≤ 255)

/-- Accept a dotted-quad IPv4 address as a character list. -/
def isIPv4L (l : List Char) : Bool :=
  let parts := splitChar '.' l
  parts.length == 4 && parts.all isV4Seg

/-- Model of node's net.isIPv4. -/
def isIPv4 (s : String) : Bool := isIPv4L s.data

/-- Hexadecimal digit test. -/
def isHexDigit (c : Char) : Bool :=
  c.isDigit || ('a' ≤ c && c ≤ 'f') || ('A' ≤ c && c ≤ 'F')

/-- Accept one IPv6 group: one to four hexadecimal digits. -/
def isV6Seg (g : List Char) : Bool :=
  !g.isEmpty && decide (g.length ≤ 4) && g.all isHexDigit

/-- Count the 16-bit groups of a colon-split list in which every group
must be a plain hex group. -/
def countV6Segs : List (List Char) → Option Nat
  | [] => some 0
  | g :: gs => if isV6Seg g then (countV6Segs gs).map (fun n => n + 1) else none

/-- Count the 16-bit groups of a colon-split list in which the final group
may instead be an embedded dotted-quad IPv4 address, which stands for two
16-bit groups. -/
def tailSegs : List (List Char) → Option Nat
  | [] => some 0
  | [g] => if isV6Seg g then some 1 else if isIPv4L g then some 2 else none
  | g :: gs => if isV6Seg g then (tailSegs gs).map (fun n => n + 1) else none

/-- Accept an IPv6 address body (no zone suffix): either exactly eight
groups with no `::` compression, or a single `::` with the groups before
and after it totalling at most seven. -/
def isIPv6Addr (addr : List Char) : Bool :=
  match splitDoubleColon addr with
  | none => tailSegs (splitChar ':' addr) == some 8
  | some p =>
    let hb := if p.1.isEmpty then some 0 else countV6Segs (splitChar ':' p.1)
    let ha := if p.2.isEmpty then some 0 else tailSegs (splitChar ':' p.2)
    match hb, ha with
    | some h, some t => decide (h + t ≤ 7)
    | _, _ => false

/-- Zone identifier characters of an IPv6 scoped literal. -/
def isZoneChar (c : Char) : Bool := c.isAlphanum || c == '.'

/-- Accept an IPv6 literal as a character list: an address body optionally
followed by a percent sign and a non-empty zone identifier. -/
def isIPv6L (l : List Char) : Bool :=
  match splitFirst '%' l with
  | (addr, some zone) => isIPv6Addr addr && !zone.isEmpty && zone.all isZoneChar
  | (addr, none) => isIPv6Addr addr

/-- Model of node's net.isIPv6. -/
def isIPv6 (s : String) : Bool := isIPv6L s.data

/-- Whitespace characters stripped by JavaScript's String.prototype.trim:
the common WhiteSpace code points and the line terminators. -/
def isJsWhitespace (c : Char) : Bool :=
  c == ' ' || c == '\t' || c == '\n' || c == '\r'
    || c == '\x0b' || c == '\x0c' || c == '\u00a0' || c == '\u2028' || c == '\u2029'

/-- Model of JavaScript's String.prototype.trim: drop leading and
trailing whitespace. -/
def trimStr (s : String) : String :=
  ⟨(((s.data.dropWhile isJsWhitespace).reverse.dropWhile isJsWhitespace).reverse)⟩

/-- Embedding of validateIp from the utils module: a candidate is accepted
when it is truthy (non-empty, mirroring the JavaScript `Boolean(ip && _)`)
and parses for the requested family, where any family value other than the
exact string "v6" selects the IPv4 check. -/
def validateIp (ip : String) (version : String) : Bool :=
  !(ip == "") && (if version == "v6" then isIPv6 ip else isIPv4 ip)

/-! ### Failure causes and the candidate race

Each candidate transport call settles with an `Outcome`: either a raw
string or a failure cause.  JavaScript `Promise.any` resolves with the
first promise to fulfil in completion order, and, when every promise
rejects, rejects with an `AggregateError` whose `errors` list is in the
order of the input iterable.  A run of a race is therefore a pure
function of the candidate outcome list (input order) together with a
completion order `order`, given as the list of candidate indices in the
order their promises settle. -/

/-- Failure causes observed by the orchestration layer.  `aggregate`
models an AggregateError (the rejection of `Promise.any`); `ipNotFound`
models the repository's IpNotFoundError carrying its `cause`. -/
inductive Err where
  | httpStatus (status : Nat) (statusText : String)
  | invalidIp
  | transportFail (msg : String)
  | timeoutReason
  | aggregate (errs : List Err)
  | ipNotFound (cause : Err)
deriving Repr

/-- Settled result of one asynchronous operation. -/
abbrev Outcome := Except Err String

/-- Boolean test for a rejected outcome. -/
def isErr (r : Outcome) : Bool :=
  match r with
  | .error _ => true
  | .ok _ => false

/-- Boolean test for a fulfilled outcome. -/
def isOk (r : Outcome) : Bool :=
  match r with
  | .error _ => false
  | .ok _ => true

/-- Value of the first fulfilled outcome of a list, if any. -/
def firstOk : List Outcome → Option String
  | [] => none
  | .ok s :: _ => some s
  | .error _ :: rest => firstOk rest

/-- Causes of the rejected outcomes of a list, in list order. -/
def errsOf (rs : List Outcome) : List Err :=
  rs.filterMap fun r =>
    match r with
    | .error e => some e
    | .ok _ => none

/-- View of the candidate outcomes `rs` (input order) in completion
order: `order` lists candidate indices in the order they settle. -/
def inOrder (rs : List Outcome) (order : List Nat) : List Outcome :=
  order.filterMap fun i => rs.get? i

/-- Model of `Promise.any`: fulfil with the first fulfilled candidate in
completion order; if no candidate fulfils, reject with an AggregateError
holding the causes in input order. -/
def promiseAny (rs : List Outcome) (order : List Nat) : Outcome :=
  match firstOk (inOrder rs order) with
  | some s => .ok s
  | none => .error (.aggregate (errsOf rs))

/-- Embedding of the aggregation step shared by queryDns and queryHttps:
`const errors = error.errors ?? []; const lastError = errors.at(-1) ?? error`.
An aggregate with at least one recorded cause yields its last element;
anything else yields the error itself. -/
def lastCause : Err → Err
  | .aggregate errs =>
    match errs.getLast? with
    | some e => e
    | none => .aggregate errs
  | e => e

/-! ### HTTPS candidate race (query module, `queryHttps`) -/

/-- Result object of a fetch call: the `ok` flag, status, status text and
body text used by the query module. -/
structure FetchResponse where
  respOk : Bool
  status : Nat
  statusText : String
  text : String

/-- World of the fetch transport: what each URL's request settles with.
The abort signal passed to fetch is part of this world (an aborted
request settles with a rejection). -/
abbrev FetchWorld := String → Except Err FetchResponse

/-- External cancellation signal, modelled by the instant at which it
aborts (none = never) together with its abort reason.  A call begins at
time 0, so a signal already aborted when the call begins has fire time
0. -/
structure ExtSignal where
  fireTime : Option Nat
  reason : Err

/-- Whether the signal is in the aborted state at the given instant. -/
def ExtSignal.aborted (s : ExtSignal) (now : Nat) : Bool :=
  match s.fireTime with
  | some t => decide (t ≤ now)
  | none => false

/-- Options record of the public entry points.  Optional fields are
`Option`s mirroring the JavaScript `??` / truthiness handling at each use
site. -/
structure QOptions where
  fallbackUrls : Option (List String)
  onlyHttps : Bool
  timeout : Option Nat
  signal : Option ExtSignal

/-- Processing of one HTTPS candidate in `queryHttps`: reject on a
non-ok response, otherwise trim the body and accept it only if it
validates for the requested family. -/
def httpsCandidate (world : FetchWorld) (version : String) (url : String) : Outcome :=
  match world url with
  | .error e => .error e
  | .ok resp =>
    if !resp.respOk then .error (.httpStatus resp.status resp.statusText)
    else
      let ip := trimStr resp.text
      if validateIp ip version then .ok ip else .error .invalidIp

/-- Candidate list of the HTTPS race: the given URLs followed by the
caller's fallback URLs, each mapped through `httpsCandidate`. -/
def httpsCandidates (world : FetchWorld) (version : String) (urls : List String)
    (options : QOptions) : List Outcome :=
  (urls ++ options.fallbackUrls.getD []).map (httpsCandidate world version)

/-- Embedding of `queryHttps`: race all HTTPS candidates; if none
fulfils, reject with an IpNotFoundError whose cause is the last recorded
cause of the aggregate. -/
def queryHttps (world : FetchWorld) (version : String) (urls : List String)
    (options : QOptions) (order : List Nat) : Outcome :=
  match promiseAny (httpsCandidates world version urls options) order with
  | .ok ip => .ok ip
  | .error e => .error (.ipNotFound (lastCause e))

/-! ### DNS candidate race (source/index.js, `createDnsQuery` / `queryDns`) -/

/-- DNS question of one resolver configuration: record name, record type
and the optional response transform (`transform?.(response) ?? response`). -/
structure DnsQuestion where
  name : String
  qtype : String
  transform : Option (String → String)

/-- Per-family entry of one resolver configuration: the resolver
addresses and the question they are asked. -/
structure DnsFamilyConfig where
  servers : List String
  question : DnsQuestion

/-- One entry of the static dnsServers configuration (constants.js is
configuration data outside the orchestration core, so the list itself is
a parameter of the embedding). -/
structure DnsServerConfig where
  v4 : DnsFamilyConfig
  v6 : DnsFamilyConfig

/-- Selection `serverConfig[version]`; only "v4" and "v6" are ever
passed. -/
def DnsServerConfig.get (c : DnsServerConfig) (version : String) : DnsFamilyConfig :=
  if version == "v6" then c.v6 else c.v4

/-- World of the DNS transport: what one query to one server settles
with.  A fulfilled value is the answer data as a string (the code accepts
a string or anything with toString); a rejection covers socket errors,
timeouts and the absence of any answer record. -/
abbrev DnsWorld := String → DnsQuestion → Except Err String

/-- Processing of one DNS candidate in `createDnsQuery`: trim the answer
data, apply the optional transform, and accept the result only if it
validates for the requested family. -/
def createDnsQuery (world : DnsWorld) (server : String) (version : String)
    (q : DnsQuestion) : Outcome :=
  match world server q with
  | .error e => .error e
  | .ok data =>
    let response := trimStr data
    let ip :=
      match q.transform with
      | some f => f response
      | none => response
    if validateIp ip version then .ok ip else .error .invalidIp

/-- Candidate list of the DNS race: every server of every configuration
entry for the requested family, in configuration order. -/
def dnsCandidates (world : DnsWorld) (dnsServers : List DnsServerConfig)
    (version : String) : List Outcome :=
  dnsServers.flatMap fun cfg =>
    (cfg.get version).servers.map fun server =>
      createDnsQuery world server version (cfg.get version).question

/-- Embedding of `queryDns`: race all DNS candidates; if none fulfils,
reject with an IpNotFoundError whose cause is the last recorded cause of
the aggregate. -/
def queryDns (world : DnsWorld) (dnsServers : List DnsServerConfig)
    (version : String) (order : List Nat) : Outcome :=
  match promiseAny (dnsCandidates world dnsServers version) order with
  | .ok ip => .ok ip
  | .error e => .error (.ipNotFound (lastCause e))

/-- Embedding of `queryAll`: try the DNS race and, on any failure of that
race as a whole, return the result of the HTTPS race instead. -/
def queryAll (dnsWorld : DnsWorld) (fetchWorld : FetchWorld)
    (dnsServers : List DnsServerConfig) (httpsUrls : List String)
    (version : String) (options : QOptions)
    (dnsOrder httpsOrder : List Nat) : Outcome :=
  match queryDns dnsWorld dnsServers version dnsOrder with
  | .ok ip => .ok ip
  | .error _ => queryHttps fetchWorld version httpsUrls options httpsOrder

/-- Embedding of `nodeQueryFunction`: HTTPS race only when `onlyHttps` is
set, otherwise the DNS race with silent HTTPS fallback.  `httpsUrls`
stands for the static `httpsUrls[version]` list of constants.js. -/
def nodeQueryFunction (dnsWorld : DnsWorld) (fetchWorld : FetchWorld)
    (dnsServers : List DnsServerConfig) (httpsUrls : List String)
    (version : String) (options : QOptions)
    (dnsOrder httpsOrder : List Nat) : Outcome :=
  if options.onlyHttps then queryHttps fetchWorld version httpsUrls options httpsOrder
  else queryAll dnsWorld fetchWorld dnsServers httpsUrls version options dnsOrder httpsOrder

/-! ### Cancellation envelope (utils module, `createAbortSignal` /
`withAbortSignal`; query module, `createQuery`)

Real time is modelled by instants on a `Nat` axis, the call beginning at
instant 0.  A signal is its abort instant (if any) plus its reason; the
wrapped pipeline promise is its settlement instant plus its outcome.
`Promise.race` and `AbortSignal.any` compare instants; at equal instants
the model settles deterministically (the first-listed signal, the
promise), so the theorems below use strict inequalities. -/

/-- Model of `AbortSignal.timeout t`: fires at instant `t` with a
TimeoutError reason. -/
def timeoutSignal (t : Nat) : ExtSignal := ⟨some t, .timeoutReason⟩

/-- Model of `AbortSignal.any [a, b]`: aborts when the first of the two
aborts, with that signal's reason. -/
def signalAny (a b : ExtSignal) : ExtSignal :=
  match a.fireTime, b.fireTime with
  | none, _ => b
  | some _, none => a
  | some ta, some tb => if ta ≤ tb then a else b

/-- Embedding of `createAbortSignal`: throw at once when the supplied
signal is already aborted; return no signal when neither a (truthy)
timeout nor a signal is supplied; otherwise combine the timeout signal
and the supplied signal.  A timeout of 0 is falsy in JavaScript and is
treated as absent. -/
def createAbortSignal (timeout : Option Nat) (signal : Option ExtSignal) :
    Except Err (Option ExtSignal) :=
  match signal with
  | some s =>
    if s.aborted 0 then .error s.reason
    else
      match timeout with
      | some t => if t != 0 then .ok (some (signalAny (timeoutSignal t) s)) else .ok (some s)
      | none => .ok (some s)
  | none =>
    match timeout with
    | some t => if t != 0 then .ok (some (timeoutSignal t)) else .ok none
    | none => .ok none

/-- Pipeline promise as observed by the cancellation envelope: the
instant it settles and what it settles with. -/
structure TimedOutcome where
  settleTime : Nat
  result : Outcome

/-- Embedding of `withAbortSignal`: without a signal, the promise's own
outcome; otherwise throw at once if the signal is already aborted, and
race the promise against a rejection carrying the signal's reason at its
abort instant. -/
def withAbortSignal (p : TimedOutcome) (signal : Option ExtSignal) : Outcome :=
  match signal with
  | none => p.result
  | some s =>
    if s.aborted 0 then .error s.reason
    else
      match s.fireTime with
      | some t => if t < p.settleTime then .error s.reason else p.result
      | none => p.result

/-- Embedding of `createQuery`: build the combined abort signal (throwing
before the query function is invoked when the supplied signal is already
aborted), then run the query function under `withAbortSignal`. -/
def createQuery (queryFunction : Option ExtSignal → TimedOutcome)
    (options : QOptions) : Outcome :=
  match createAbortSignal options.timeout options.signal with
  | .error e => .error e
  | .ok signal => withAbortSignal (queryFunction signal) signal

/-! ### Dual-family combinator -/

/-- Modelled from the spec: `createPublicIp` lives in core.js, which is
not under src/.  Per the spec's Dual-Family Combinator contract, the v4
and v6 pipelines run concurrently and the call returns the first one to
produce a valid IP; the arguments are the two pipelines' outcomes in the
order they are observed to settle.  If both fail, the failure observed
first (already an IpNotFoundError produced by its pipeline) is
surfaced. -/
def createPublicIp (first second : Outcome) : Outcome :=
  match first with
  | .ok ip => .ok ip
  | .error e =>
    match second with
    | .ok ip => .ok ip
    | .error _ => .error e

/-! ### Concrete fixtures used by the evaluation witnesses -/

/-- Fetch world in which every URL answers with a bare IPv4 literal. -/
def fetchOkWorld : FetchWorld := fun _ => .ok ⟨true, 200, "OK", "203.0.113.10"⟩

/-- Response whose body is an IPv4 literal padded by whitespace. -/
def padResp : FetchResponse := ⟨true, 200, "OK", " 203.0.113.10\n"⟩

/-- Fetch world in which every URL answers with an IPv4 literal padded by
whitespace. -/
def fetchPadWorld : FetchWorld := fun _ => .ok padResp

/-- External signal that aborts at instant 3. -/
def extSig3 : ExtSignal := ⟨some 3, .transportFail "external abort"⟩

/-- External signal already aborted when the call begins. -/
def preabortedSig : ExtSignal := ⟨some 0, .transportFail "pre-aborted"⟩

/-- Pipeline promise that would settle successfully at instant 10. -/
def pendingPromise : TimedOutcome := ⟨10, .ok "203.0.113.10"⟩

/-- Options carrying a 5ms timeout and the instant-3 external signal. -/
def abortOptions : QOptions := ⟨none, false, some 5, some extSig3⟩

/-- Options carrying only the already-aborted external signal. -/
def preabortedOptions : QOptions := ⟨none, false, none, some preabortedSig⟩

/-- Fetch world in which every request fails at the transport level. -/
def fetchFailWorld : FetchWorld := fun url => .error (.transportFail url)

/-- DNS world in which every query answers with a bare IPv4 literal. -/
def dnsOkWorld : DnsWorld := fun _ _ => .ok "203.0.113.10"

/-- DNS world in which every query fails at the transport level. -/
def dnsFailWorld : DnsWorld := fun server _ => .error (.transportFail server)

/-- Default options: no fallback URLs, DNS allowed, no timeout, no
signal. -/
def plainOptions : QOptions := ⟨none, false, none, none⟩

/-- Options selecting the HTTPS-only path. -/
def httpsOnlyOptions : QOptions := ⟨none, true, none, none⟩

/-- Sample resolver question. -/
def sampleQuestion : DnsQuestion := ⟨"myip.opendns.com", "A", none⟩

/-- Sample resolver configuration entry. -/
def sampleConfig : DnsServerConfig :=
  ⟨⟨["208.67.222.222", "208.67.220.220"], sampleQuestion⟩,
   ⟨["2620:0:ccc::2"], ⟨"myip.opendns.com", "AAAA", none⟩⟩⟩

/-! ### Helper lemmas on the split utilities and the validators -/

theorem splitChar_ne_nil (sep : Char) (xs : List Char) : splitChar sep xs ≠ [] := by
  induction xs with
  | nil => simp [splitChar]
  | cons c rest ih =>
    simp only [splitChar]
    cases h : splitChar sep rest with
    | nil => simp
    | cons g gs => by_cases hc : c = sep <;> simp [hc]

theorem chars_of_splitChar (sep : Char) (p : Char → Bool) (xs : List Char)
    (h : ∀ g ∈ splitChar sep xs, ∀ c ∈ g, p c = true) :
    ∀ c ∈ xs, c = sep ∨ p c = true := by
  induction xs with
  | nil => intro c hc; cases hc
  | cons a rest ih =>
    intro c hc
    cases hr : splitChar sep rest with
    | nil => exact absurd hr (splitChar_ne_nil sep rest)
    | cons g gs =>
      by_cases ha : a = sep
      · have hgroups : splitChar sep (a :: rest) = [] :: g :: gs := by
          simp [splitChar, hr, ha]
        rcases List.mem_cons.mp hc with hceq | hcrest
        · exact Or.inl (hceq.trans ha)
        · refine ih ?_ c hcrest
          intro g' hg' c' hc'
          exact h g' (by rw [hgroups]; exact List.mem_cons_of_mem _ (by rw [hr] at hg'; exact hg')) c' hc'
      · have hgroups : splitChar sep (a :: rest) = (a :: g) :: gs := by
          simp [splitChar, hr, ha]
        rcases List.mem_cons.mp hc with hceq | hcrest
        · refine Or.inr ?_
          refine h (a :: g) (by rw [hgroups]; exact List.mem_cons_self _ _) c ?_
          rw [hceq]; exact List.mem_cons_self _ _
        · refine ih ?_ c hcrest
          intro g' hg' c' hc'
          rw [hr] at hg'
          rcases List.mem_cons.mp hg' with hg'eq | hg'tail
          · refine h (a :: g) (by rw [hgroups]; exact List.mem_cons_self _ _) c' ?_
            rw [hg'eq] at hc'
            exact List.mem_cons_of_mem _ hc'
          · exact h g' (by rw [hgroups]; exact List.mem_cons_of_mem _ hg'tail) c' hc'

theorem splitChar_sep_mem (sep : Char) (xs : List Char)
    (h : 2 ≤ (splitChar sep xs).length) : sep ∈ xs := by
  induction xs with
  | nil => simp [splitChar] at h
  | cons a rest ih =>
    cases hr : splitChar sep rest with
    | nil => exact absurd hr (splitChar_ne_nil sep rest)
    | cons g gs =>
      by_cases ha : a = sep
      · rw [ha]; exact List.mem_cons_self _ _
      · have hgroups : splitChar sep (a :: rest) = (a :: g) :: gs := by
          simp [splitChar, hr, ha]
        rw [hgroups] at h
        refine List.mem_cons_of_mem _ (ih ?_)
        rw [hr]
        simpa using h

theorem splitFirst_eq_none (sep : Char) (xs : List Char) :
    ∀ a, splitFirst sep xs = (a, none) → a = xs := by
  induction xs with
  | nil =>
    intro a h
    simp [splitFirst] at h
    exact h
  | cons c rest ih =>
    intro a h
    by_cases hc : c = sep
    · simp [splitFirst, hc] at h
    · rcases hp : splitFirst sep rest with ⟨a2, o⟩
      simp only [splitFirst, if_neg hc, hp] at h
      obtain ⟨h1, h2⟩ := Prod.mk.inj h
      rw [h2] at hp
      rw [← h1, ih a2 hp]

theorem splitFirst_eq_some (sep : Char) (xs : List Char) :
    ∀ a b, splitFirst sep xs = (a, some b) → xs = a ++ sep :: b := by
  induction xs with
  | nil => intro a b h; simp [splitFirst] at h
  | cons c rest ih =>
    intro a b h
    by_cases hc : c = sep
    · simp only [splitFirst, if_pos hc] at h
      obtain ⟨h1, h2⟩ := Prod.mk.inj h
      simp [← h1, hc, Option.some.inj h2]
    · rcases hp : splitFirst sep rest with ⟨a2, o⟩
      simp only [splitFirst, if_neg hc, hp] at h
      obtain ⟨h1, h2⟩ := Prod.mk.inj h
      rw [h2] at hp
      rw [← h1, ih a2 b hp]
      simp

theorem splitDoubleColon_eq (xs : List Char) :
    ∀ a b, splitDoubleColon xs = some (a, b) → xs = a ++ ':' :: ':' :: b := by
  induction xs with
  | nil => intro a b h; simp [splitDoubleColon] at h
  | cons c rest ih =>
    intro a b h
    rw [splitDoubleColon.eq_def] at h
    split at h
    · rename_i rest2 heq
      obtain ⟨h1, h2⟩ := Prod.mk.inj (Option.some.inj h)
      obtain ⟨hce, hre⟩ := List.cons.inj heq
      rw [← h1, ← h2, hce, hre]
      simp
    · rename_i c2 rest2 hnp heq
      obtain ⟨hce, hre⟩ := List.cons.inj heq
      split at h
      · rename_i p hp
        rcases p with ⟨p1, p2⟩
        obtain ⟨h1, h2⟩ := Prod.mk.inj (Option.some.inj h)
        rw [← hre] at hp
        have hxs := ih p1 p2 hp
        rw [← h1, ← h2, hce, hxs]
        simp
      · exact absurd h (by simp)
    · cases h

theorem tailSegs_eight_length (l : List (List Char))
    (h : tailSegs l = some 8) : 2 ≤ l.length := by
  match l with
  | [] => simp [tailSegs] at h
  | [g] =>
    simp only [tailSegs] at h
    split at h
    · simp at h
    · split at h
      · simp at h
      · cases h
  | g :: g2 :: gs => simp

theorem ipv4_chars (l : List Char) (h : isIPv4L l = true) :
    ∀ c ∈ l, c = '.' ∨ c.isDigit = true := by
  simp only [isIPv4L, Bool.and_eq_true] at h
  refine chars_of_splitChar '.' Char.isDigit l ?_
  intro g hg c hc
  have hseg : isV4Seg g = true := by
    have := h.2
    rw [List.all_eq_true] at this
    exact this g hg
  simp only [isV4Seg, Bool.and_eq_true] at hseg
  have := hseg.1.1.2
  rw [List.all_eq_true] at this
  exact this c hc

theorem ipv6Addr_colon (addr : List Char) (h : isIPv6Addr addr = true) :
    ':' ∈ addr := by
  rw [isIPv6Addr.eq_def] at h
  split at h
  · rename_i hsd
    have heq : tailSegs (splitChar ':' addr) = some 8 := by
      rwa [beq_iff_eq] at h
    exact splitChar_sep_mem ':' addr (tailSegs_eight_length _ heq)
  · rename_i p hsd
    rcases p with ⟨p1, p2⟩
    have := splitDoubleColon_eq addr p1 p2 hsd
    rw [this]
    exact List.mem_append_right _ (List.mem_cons_self _ _)

theorem ipv6_colon (l : List Char) (h : isIPv6L l = true) : ':' ∈ l := by
  rw [isIPv6L.eq_def] at h
  split at h
  · rename_i addr zone heq
    rw [Bool.and_eq_true, Bool.and_eq_true] at h
    have hl := splitFirst_eq_some '%' l addr zone heq
    rw [hl]
    exact List.mem_append_left _ (ipv6Addr_colon addr h.1.1)
  · rename_i addr heq
    have hl := splitFirst_eq_none '%' l addr heq
    rw [← hl]
    exact ipv6Addr_colon addr h

theorem ipv4_not_ipv6 (s : String) (h : isIPv4 s = true) : isIPv6 s = false := by
  by_contra hcon
  have h6 : isIPv6 s = true := by
    cases hx : isIPv6 s
    · exact absurd hx hcon
    · rfl
  have hcolon : ':' ∈ s.data := ipv6_colon s.data h6
  have := ipv4_chars s.data h ':' hcolon
  rcases this with hdot | hdig
  · exact absurd hdot (by decide)
  · exact absurd hdig (by decide)

theorem isIPv4_ne_empty (s : String) (h : isIPv4 s = true) : s ≠ "" := by
  intro he
  rw [he] at h
  exact absurd h (by decide)

theorem isIPv6_ne_empty (s : String) (h : isIPv6 s = true) : s ≠ "" := by
  intro he
  rw [he] at h
  exact absurd h (by decide)

/-! ### Helper lemmas on the candidate race -/

theorem firstOk_mem (l : List Outcome) :
    ∀ v, firstOk l = some v → Except.ok v ∈ l := by
  induction l with
  | nil => intro v h; simp [firstOk] at h
  | cons r rest ih =>
    intro v h
    match r with
    | .ok s =>
      simp only [firstOk] at h
      rw [Option.some.inj h]
      exact List.mem_cons_self _ _
    | .error e =>
      simp only [firstOk] at h
      exact List.mem_cons_of_mem _ (ih v h)

theorem firstOk_none_of_allErr (l : List Outcome)
    (h : ∀ r ∈ l, isErr r = true) : firstOk l = none := by
  induction l with
  | nil => rfl
  | cons r rest ih =>
    match r with
    | .ok s => exact absurd (h (.ok s) (List.mem_cons_self _ _)) (by simp [isErr])
    | .error e =>
      simp only [firstOk]
      exact ih fun r hr => h r (List.mem_cons_of_mem _ hr)

theorem firstOk_isSome_of_anyOk (l : List Outcome)
    (h : ∃ r ∈ l, isOk r = true) : ∃ v, firstOk l = some v := by
  induction l with
  | nil => simp at h
  | cons r rest ih =>
    match r with
    | .ok s => exact ⟨s, rfl⟩
    | .error e =>
      simp only [firstOk]
      refine ih ?_
      rcases h with ⟨r2, hr2, hok⟩
      rcases List.mem_cons.mp hr2 with heq | htail
      · rw [heq] at hok
        simp [isOk] at hok
      · exact ⟨r2, htail, hok⟩

theorem mem_inOrder (rs : List Outcome) (order : List Nat) (r : Outcome)
    (h : r ∈ inOrder rs order) : r ∈ rs := by
  rw [inOrder, List.mem_filterMap] at h
  rcases h with ⟨i, _, hget⟩
  exact List.get?_mem hget

theorem promiseAny_eq_ok (rs : List Outcome) (order : List Nat) (ip : String)
    (h : firstOk (inOrder rs order) = some ip) : promiseAny rs order = .ok ip := by
  rw [promiseAny, h]

theorem promiseAny_allErr (rs : List Outcome) (order : List Nat)
    (h : ∀ r ∈ rs, isErr r = true) :
    promiseAny rs order = .error (.aggregate (errsOf rs)) := by
  rw [promiseAny, firstOk_none_of_allErr]
  intro r hr
  exact h r (mem_inOrder rs order r hr)

theorem httpsCandidate_ok_valid (world : FetchWorld) (version url ip : String)
    (h : httpsCandidate world version url = .ok ip) :
    validateIp ip version = true := by
  rw [httpsCandidate.eq_def] at h
  split at h
  · cases h
  · split at h
    · cases h
    · dsimp only at h
      split at h
      · rename_i hval
        rw [← Except.ok.inj h]
        exact hval
      · cases h

theorem createDnsQuery_ok_valid (world : DnsWorld) (server version : String)
    (q : DnsQuestion) (ip : String)
    (h : createDnsQuery world server version q = .ok ip) :
    validateIp ip version = true := by
  rw [createDnsQuery.eq_def] at h
  split at h
  · cases h
  · split at h <;> dsimp only at h <;> split at h
    · rename_i hval
      rw [← Except.ok.inj h]
      exact hval
    · cases h
    · rename_i hval
      rw [← Except.ok.inj h]
      exact hval
    · cases h

theorem httpsCandidates_ok_valid (world : FetchWorld) (version : String)
    (urls : List String) (options : QOptions) (ip : String)
    (h : Except.ok ip ∈ httpsCandidates world version urls options) :
    validateIp ip version = true := by
  rw [httpsCandidates, List.mem_map] at h
  rcases h with ⟨url, _, hc⟩
  exact httpsCandidate_ok_valid world version url ip hc

theorem dnsCandidates_ok_valid (world : DnsWorld) (dnsServers : List DnsServerConfig)
    (version : String) (ip : String)
    (h : Except.ok ip ∈ dnsCandidates world dnsServers version) :
    validateIp ip version = true := by
  rw [dnsCandidates, List.mem_flatMap] at h
  rcases h with ⟨cfg, _, hmem⟩
  rw [List.mem_map] at hmem
  rcases hmem with ⟨server, _, hc⟩
  exact createDnsQuery_ok_valid world server version _ ip hc

theorem queryHttps_eq_ok (world : FetchWorld) (version : String) (urls : List String)
    (options : QOptions) (order : List Nat) (ip : String)
    (h : firstOk (inOrder (httpsCandidates world version urls options) order) = some ip) :
    queryHttps world version urls options order = .ok ip := by
  rw [queryHttps, promiseAny_eq_ok _ _ _ h]

theorem queryDns_eq_ok (world : DnsWorld) (dnsServers : List DnsServerConfig)
    (version : String) (order : List Nat) (ip : String)
    (h : firstOk (inOrder (dnsCandidates world dnsServers version) order) = some ip) :
    queryDns world dnsServers version order = .ok ip := by
  rw [queryDns, promiseAny_eq_ok _ _ _ h]

theorem queryHttps_allErr (world : FetchWorld) (version : String) (urls : List String)
    (options : QOptions) (order : List Nat)
    (h : ∀ r ∈ httpsCandidates world version urls options, isErr r = true) :
    queryHttps world version urls options order
      = .error (.ipNotFound (lastCause (.aggregate (errsOf (httpsCandidates world version urls options))))) := by
  rw [queryHttps, promiseAny_allErr _ _ h]

theorem queryDns_allErr (world : DnsWorld) (dnsServers : List DnsServerConfig)
    (version : String) (order : List Nat)
    (h : ∀ r ∈ dnsCandidates world dnsServers version, isErr r = true) :
    queryDns world dnsServers version order
      = .error (.ipNotFound (lastCause (.aggregate (errsOf (dnsCandidates world dnsServers version))))) := by
  rw [queryDns, promiseAny_allErr _ _ h]

theorem queryAll_of_dnsErr (dnsWorld : DnsWorld) (fetchWorld : FetchWorld)
    (dnsServers : List DnsServerConfig) (httpsUrls : List String)
    (version : String) (options : QOptions) (dnsOrder httpsOrder : List Nat)
    (h : isErr (queryDns dnsWorld dnsServers version dnsOrder) = true) :
    queryAll dnsWorld fetchWorld dnsServers httpsUrls version options dnsOrder httpsOrder
      = queryHttps fetchWorld version httpsUrls options httpsOrder := by
  rw [queryAll.eq_def]
  cases hq : queryDns dnsWorld dnsServers version dnsOrder with
  | ok ip => rw [hq] at h; simp [isErr] at h
  | error e => rfl

/-! ### Claim theorems -/

/-- C1: in every run of a candidate race (DNS or HTTPS) in which at least
one candidate settles with a raw string accepted by the validator for the
requested family, the race resolves with that validated IP string (the
first success in completion order), and the outcomes of all other
candidates do not affect the result. -/
theorem race_first_valid_wins (fetchWorld : FetchWorld) (dnsWorld : DnsWorld)
    (version : String) (urls : List String) (dnsServers : List DnsServerConfig)
    (options : QOptions) (order : List Nat) :
    (∀ ip, firstOk (inOrder (httpsCandidates fetchWorld version urls options) order) = some ip →
      queryHttps fetchWorld version urls options order = .ok ip ∧ validateIp ip version = true)
    ∧ ((∃ r ∈ inOrder (httpsCandidates fetchWorld version urls options) order, isOk r = true) →
      ∃ ip, queryHttps fetchWorld version urls options order = .ok ip ∧ validateIp ip version = true)
    ∧ (∀ ip, firstOk (inOrder (dnsCandidates dnsWorld dnsServers version) order) = some ip →
      queryDns dnsWorld dnsServers version order = .ok ip ∧ validateIp ip version = true)
    ∧ ((∃ r ∈ inOrder (dnsCandidates dnsWorld dnsServers version) order, isOk r = true) →
      ∃ ip, queryDns dnsWorld dnsServers version order = .ok ip ∧ validateIp ip version = true)
    ∧ (∀ (fetchWorld2 : FetchWorld) (order2 : List Nat) (ip : String),
      firstOk (inOrder (httpsCandidates fetchWorld version urls options) order) = some ip →
      firstOk (inOrder (httpsCandidates fetchWorld2 version urls options) order2) = some ip →
      queryHttps fetchWorld version urls options order
        = queryHttps fetchWorld2 version urls options order2) := by
  have hHttps : ∀ ip,
      firstOk (inOrder (httpsCandidates fetchWorld version urls options) order) = some ip →
      queryHttps fetchWorld version urls options order = .ok ip ∧ validateIp ip version = true := by
    intro ip h
    refine ⟨queryHttps_eq_ok fetchWorld version urls options order ip h, ?_⟩
    exact httpsCandidates_ok_valid fetchWorld version urls options ip
      (mem_inOrder _ order _ (firstOk_mem _ ip h))
  have hDns : ∀ ip,
      firstOk (inOrder (dnsCandidates dnsWorld dnsServers version) order) = some ip →
      queryDns dnsWorld dnsServers version order = .ok ip ∧ validateIp ip version = true := by
    intro ip h
    refine ⟨queryDns_eq_ok dnsWorld dnsServers version order ip h, ?_⟩
    exact dnsCandidates_ok_valid dnsWorld dnsServers version ip
      (mem_inOrder _ order _ (firstOk_mem _ ip h))
  refine ⟨hHttps, ?_, hDns, ?_, ?_⟩
  · intro hex
    rcases firstOk_isSome_of_anyOk _ hex with ⟨ip, hip⟩
    exact ⟨ip, hHttps ip hip⟩
  · intro hex
    rcases firstOk_isSome_of_anyOk _ hex with ⟨ip, hip⟩
    exact ⟨ip, hDns ip hip⟩
  · intro fetchWorld2 order2 ip h1 h2
    rw [(hHttps ip h1).1, queryHttps_eq_ok fetchWorld2 version urls options order2 ip h2]

/-- C2: whenever the DNS race fails as a whole, the HTTPS race is run and
its result is the call's result; a DNS failure is invisible when the HTTPS
race succeeds, and when both fail the rejection is the Not-Found error
whose cause is the last cause of the HTTPS (second) race, independent of
the DNS causes. -/
theorem dns_failure_falls_back_to_https (dnsWorld : DnsWorld) (fetchWorld : FetchWorld)
    (dnsServers : List DnsServerConfig) (httpsUrls : List String)
    (version : String) (options : QOptions) (dnsOrder httpsOrder : List Nat) :
    (isErr (queryDns dnsWorld dnsServers version dnsOrder) = true →
      queryAll dnsWorld fetchWorld dnsServers httpsUrls version options dnsOrder httpsOrder
        = queryHttps fetchWorld version httpsUrls options httpsOrder)
    ∧ (isErr (queryDns dnsWorld dnsServers version dnsOrder) = true →
      (∀ r ∈ httpsCandidates fetchWorld version httpsUrls options, isErr r = true) →
      queryAll dnsWorld fetchWorld dnsServers httpsUrls version options dnsOrder httpsOrder
        = .error (.ipNotFound (lastCause (.aggregate (errsOf (httpsCandidates fetchWorld version httpsUrls options))))))
    ∧ (∀ (dnsWorld2 : DnsWorld) (dnsOrder2 : List Nat),
      isErr (queryDns dnsWorld dnsServers version dnsOrder) = true →
      isErr (queryDns dnsWorld2 dnsServers version dnsOrder2) = true →
      queryAll dnsWorld fetchWorld dnsServers httpsUrls version options dnsOrder httpsOrder
        = queryAll dnsWorld2 fetchWorld dnsServers httpsUrls version options dnsOrder2 httpsOrder) := by
  refine ⟨?_, ?_, ?_⟩
  · intro h
    exact queryAll_of_dnsErr dnsWorld fetchWorld dnsServers httpsUrls version options
      dnsOrder httpsOrder h
  · intro h hall
    rw [queryAll_of_dnsErr dnsWorld fetchWorld dnsServers httpsUrls version options
      dnsOrder httpsOrder h]
    exact queryHttps_allErr fetchWorld version httpsUrls options httpsOrder hall
  · intro dnsWorld2 dnsOrder2 h1 h2
    rw [queryAll_of_dnsErr dnsWorld fetchWorld dnsServers httpsUrls version options
      dnsOrder httpsOrder h1,
      queryAll_of_dnsErr dnsWorld2 fetchWorld dnsServers httpsUrls version options
      dnsOrder2 httpsOrder h2]

/-- C3: a candidate race in which every candidate fails at the transport
level or is rejected by the validator settles as a Not-Found error whose
cause is the last recorded failure: the last element of the aggregate's
error list when there is one, and the error itself otherwise. -/
theorem race_exhaustion_last_cause (fetchWorld : FetchWorld) (dnsWorld : DnsWorld)
    (version : String) (urls : List String) (dnsServers : List DnsServerConfig)
    (options : QOptions) (order : List Nat) :
    ((∀ r ∈ httpsCandidates fetchWorld version urls options, isErr r = true) →
      queryHttps fetchWorld version urls options order
        = .error (.ipNotFound (lastCause (.aggregate (errsOf (httpsCandidates fetchWorld version urls options))))))
    ∧ ((∀ r ∈ dnsCandidates dnsWorld dnsServers version, isErr r = true) →
      queryDns dnsWorld dnsServers version order
        = .error (.ipNotFound (lastCause (.aggregate (errsOf (dnsCandidates dnsWorld dnsServers version))))))
    ∧ (∀ (es : List Err) (e : Err), lastCause (.aggregate (es ++ [e])) = e)
    ∧ (∀ e : Err, (∀ es, e ≠ .aggregate es) → lastCause e = e) := by
  refine ⟨?_, ?_, ?_, ?_⟩
  · exact queryHttps_allErr fetchWorld version urls options order
  · exact queryDns_allErr dnsWorld dnsServers version order
  · intro es e
    rw [lastCause, List.getLast?_concat]
  · intro e he
    cases e with
    | aggregate es => exact absurd rfl (he es)
    | httpStatus a b => rfl
    | invalidIp => rfl
    | transportFail m => rfl
    | timeoutReason => rfl
    | ipNotFound c => rfl

/-- C4: with onlyHttps set, the call is exactly the single HTTPS race over
the built-in URLs followed in order by the caller's fallback URLs, and no
DNS lookup is invoked: the result does not depend on the DNS world, the
resolver configuration, or the DNS completion order. -/
theorem only_https_skips_dns (dnsWorld : DnsWorld) (fetchWorld : FetchWorld)
    (dnsServers : List DnsServerConfig) (httpsUrls : List String)
    (version : String) (options : QOptions) (dnsOrder httpsOrder : List Nat)
    (h : options.onlyHttps = true) :
    nodeQueryFunction dnsWorld fetchWorld dnsServers httpsUrls version options dnsOrder httpsOrder
      = queryHttps fetchWorld version httpsUrls options httpsOrder
    ∧ httpsCandidates fetchWorld version httpsUrls options
      = (httpsUrls ++ options.fallbackUrls.getD []).map (httpsCandidate fetchWorld version)
    ∧ (∀ (dnsWorld2 : DnsWorld) (dnsServers2 : List DnsServerConfig) (dnsOrder2 : List Nat),
      nodeQueryFunction dnsWorld2 fetchWorld dnsServers2 httpsUrls version options dnsOrder2 httpsOrder
        = nodeQueryFunction dnsWorld fetchWorld dnsServers httpsUrls version options dnsOrder httpsOrder) := by
  refine ⟨?_, rfl, ?_⟩
  · rw [nodeQueryFunction, if_pos (by rw [h])]
  · intro dnsWorld2 dnsServers2 dnsOrder2
    rw [nodeQueryFunction, if_pos (by rw [h]), nodeQueryFunction, if_pos (by rw [h])]

/-- C5: with both a timeout and an external signal supplied (the signal
not already aborted), the combined signal fires at whichever trigger
occurs first, and when it fires while the wrapped pipeline is still
pending the call rejects with that trigger's own reason — the timeout's
TimeoutError reason (never a Not-Found error) when the timeout fires
first, the external signal's reason when it fires first — for every
pipeline stage, since the whole pipeline is one wrapped promise. -/
theorem cancellation_first_trigger_wins (t : Nat) (s : ExtSignal) (p : TimedOutcome)
    (options : QOptions) (ht : t ≠ 0) (hs : s.aborted 0 = false)
    (hT : options.timeout = some t) (hS : options.signal = some s) :
    createAbortSignal options.timeout options.signal
      = .ok (some (signalAny (timeoutSignal t) s))
    ∧ (∀ u, s.fireTime = some u →
        (signalAny (timeoutSignal t) s).fireTime = some (min t u))
    ∧ (s.fireTime = none → signalAny (timeoutSignal t) s = timeoutSignal t)
    ∧ ((s.fireTime = none ∨ ∃ u, s.fireTime = some u ∧ t < u) →
        t < p.settleTime →
        createQuery (fun _ => p) options = .error .timeoutReason
        ∧ (∀ c, createQuery (fun _ => p) options ≠ .error (.ipNotFound c)))
    ∧ (∀ u, s.fireTime = some u → u < t → u < p.settleTime →
        createQuery (fun _ => p) options = .error s.reason) := by
  have hsig : createAbortSignal options.timeout options.signal
      = .ok (some (signalAny (timeoutSignal t) s)) := by
    rw [hT, hS, createAbortSignal]
    simp [hs, ht]
  refine ⟨hsig, ?_, ?_, ?_, ?_⟩
  · intro u hu
    rw [signalAny, timeoutSignal, hu]
    by_cases hle : t ≤ u
    · simp [hle, Nat.min_eq_left hle]
    · simp [hle, Nat.min_eq_right (Nat.le_of_not_le hle), hu]
  · intro hn
    rw [signalAny, timeoutSignal, hn]
  · intro hfirst hpend
    have heff : signalAny (timeoutSignal t) s = timeoutSignal t := by
      rcases hfirst with hn | ⟨u, hu, htu⟩
      · rw [signalAny, timeoutSignal, hn]
      · rw [signalAny, timeoutSignal, hu]
        simp [Nat.le_of_lt htu]
    have hres : createQuery (fun _ => p) options = .error .timeoutReason := by
      rw [createQuery, hsig, heff]
      dsimp only
      rw [withAbortSignal.eq_def]
      dsimp only
      have habort : (timeoutSignal t).aborted 0 = false := by
        simp [ExtSignal.aborted, timeoutSignal]
        omega
      rw [habort]
      simp [timeoutSignal, hpend]
    refine ⟨hres, ?_⟩
    intro c hcon
    rw [hres] at hcon
    simp at hcon
  · intro u hu hut hpend
    have heff : signalAny (timeoutSignal t) s = s := by
      rw [signalAny, timeoutSignal, hu]
      simp [Nat.not_le.mpr hut]
    rw [createQuery, hsig, heff]
    dsimp only
    rw [withAbortSignal.eq_def]
    dsimp only
    rw [hs, hu]
    simp [hpend]

/-- C6: a call whose supplied external signal is already aborted when the
call begins rejects immediately with that signal's reason, before the
query function (hence any transport request) is ever invoked: the result
is the same for every query function. -/
theorem preaborted_signal_rejects_immediately (s : ExtSignal) (options : QOptions)
    (hS : options.signal = some s) (h0 : s.fireTime = some 0) :
    ∀ queryFunction : Option ExtSignal → TimedOutcome,
      createQuery queryFunction options = .error s.reason := by
  intro queryFunction
  have habort : s.aborted 0 = true := by
    rw [ExtSignal.aborted, h0]
    simp
  rw [createQuery, hS, createAbortSignal.eq_def]
  dsimp only
  rw [habort]
  simp

/-- C7: the validator accepts only non-empty strings that are
syntactically valid literals of the requested family; every valid IPv4
string is accepted for family v4 and rejected for family v6 and
symmetrically for IPv6 strings, so no string validates for both
families. -/
theorem validator_families_exclusive (s v : String) :
    (validateIp s v = true →
      s ≠ "" ∧ (if v == "v6" then isIPv6 s else isIPv4 s) = true)
    ∧ (isIPv4 s = true → validateIp s "v4" = true ∧ validateIp s "v6" = false)
    ∧ (isIPv6 s = true → validateIp s "v6" = true ∧ validateIp s "v4" = false)
    ∧ ¬(isIPv4 s = true ∧ isIPv6 s = true) := by
  refine ⟨?_, ?_, ?_, ?_⟩
  · intro h
    rw [validateIp, Bool.and_eq_true] at h
    refine ⟨?_, h.2⟩
    intro he
    rw [he] at h
    simp at h
  · intro h4
    have hne : (s == "") = false := beq_eq_false_iff_ne.mpr (isIPv4_ne_empty s h4)
    have h6 : isIPv6 s = false := ipv4_not_ipv6 s h4
    constructor
    · rw [validateIp, hne]
      simp [h4]
    · rw [validateIp, hne]
      simp [h6]
  · intro h6
    have hne : (s == "") = false := beq_eq_false_iff_ne.mpr (isIPv6_ne_empty s h6)
    have h4 : isIPv4 s = false := by
      cases hx : isIPv4 s
      · rfl
      · rw [ipv4_not_ipv6 s hx] at h6
        cases h6
    constructor
    · rw [validateIp, hne]
      simp [h6]
    · rw [validateIp, hne]
      simp [h4]
  · rintro ⟨h4, h6⟩
    rw [ipv4_not_ipv6 s h4] at h6
    cases h6

/-- C8: the dual-family combinator (modelled from the spec, core.js being
absent from src/) resolves with the first valid IP produced by either
pipeline, and when both pipelines fail it rejects with the Not-Found
error of the family observed to fail first. -/
theorem dual_family_first_result (ip : String) (r : Outcome) (e e2 c : Err) :
    createPublicIp (.ok ip) r = .ok ip
    ∧ createPublicIp (.error e) (.ok ip) = .ok ip
    ∧ createPublicIp (.error (.ipNotFound c)) (.error e2) = .error (.ipNotFound c) := by
  exact ⟨rfl, rfl, rfl⟩

/-- C9: every raw lookup result is trimmed of leading and trailing
whitespace before validation: an HTTPS body or a DNS answer that is a
valid literal surrounded by whitespace is accepted, the resolved value
being the trimmed literal and never the padded original. -/
theorem results_trimmed_before_validation (fetchWorld : FetchWorld) (dnsWorld : DnsWorld)
    (version url server : String) (resp : FetchResponse) (q : DnsQuestion) (data : String) :
    (fetchWorld url = .ok resp → resp.respOk = true →
      validateIp (trimStr resp.text) version = true →
      httpsCandidate fetchWorld version url = .ok (trimStr resp.text))
    ∧ (fetchWorld url = .ok resp → resp.respOk = true →
      validateIp (trimStr resp.text) version = true → resp.text ≠ trimStr resp.text →
      httpsCandidate fetchWorld version url ≠ .ok resp.text)
    ∧ (dnsWorld server q = .ok data → q.transform = none →
      validateIp (trimStr data) version = true →
      createDnsQuery dnsWorld server version q = .ok (trimStr data))
    ∧ (dnsWorld server q = .ok data → q.transform = none →
      validateIp (trimStr data) version = true → data ≠ trimStr data →
      createDnsQuery dnsWorld server version q ≠ .ok data) := by
  have hhttps : fetchWorld url = .ok resp → resp.respOk = true →
      validateIp (trimStr resp.text) version = true →
      httpsCandidate fetchWorld version url = .ok (trimStr resp.text) := by
    intro hw hok hval
    rw [httpsCandidate, hw]
    simp [hok, hval]
  have hdns : dnsWorld server q = .ok data → q.transform = none →
      validateIp (trimStr data) version = true →
      createDnsQuery dnsWorld server version q = .ok (trimStr data) := by
    intro hw htr hval
    rw [createDnsQuery, hw, htr]
    simp [hval]
  refine ⟨hhttps, ?_, hdns, ?_⟩
  · intro hw hok hval hpad hcon
    rw [hhttps hw hok hval] at hcon
    exact hpad (Except.ok.inj hcon).symm
  · intro hw htr hval hpad hcon
    rw [hdns hw htr hval] at hcon
    exact hpad (Except.ok.inj hcon).symm

/-- C10: the validator treats any family argument other than the exact
string "v6" as a request for IPv4 validation. -/
theorem validator_defaults_to_v4 (s v : String) (h : v ≠ "v6") :
    validateIp s v = validateIp s "v4" := by
  rw [validateIp, validateIp]
  have hv : (v == "v6") = false := beq_eq_false_iff_ne.mpr h
  rw [hv]
  rfl

/-! ### Evaluation witnesses for the claim theorems -/

theorem race_first_valid_wins_witness :
    queryHttps fetchOkWorld "v4" ["https://icanhazip.com/"] plainOptions [0] = .ok "203.0.113.10"
    ∧ validateIp "203.0.113.10" "v4" = true :=
  (race_first_valid_wins fetchOkWorld dnsOkWorld "v4" ["https://icanhazip.com/"] []
    plainOptions [0]).1 "203.0.113.10" (by rfl)

theorem dns_failure_falls_back_witness :
    queryAll dnsFailWorld fetchOkWorld [sampleConfig] ["https://icanhazip.com/"] "v4"
      plainOptions [0, 1] [0]
      = queryHttps fetchOkWorld "v4" ["https://icanhazip.com/"] plainOptions [0] :=
  (dns_failure_falls_back_to_https dnsFailWorld fetchOkWorld [sampleConfig]
    ["https://icanhazip.com/"] "v4" plainOptions [0, 1] [0]).1 (by rfl)

theorem race_exhaustion_witness :
    queryHttps fetchFailWorld "v4" ["https://a.example/", "https://b.example/"] plainOptions [0, 1]
      = .error (.ipNotFound (lastCause (.aggregate (errsOf
          (httpsCandidates fetchFailWorld "v4" ["https://a.example/", "https://b.example/"] plainOptions))))) :=
  (race_exhaustion_last_cause fetchFailWorld dnsFailWorld "v4"
    ["https://a.example/", "https://b.example/"] [] plainOptions [0, 1]).1 (by decide)

theorem only_https_witness :
    nodeQueryFunction dnsFailWorld fetchOkWorld [sampleConfig] ["https://icanhazip.com/"] "v4"
      httpsOnlyOptions [0, 1] [0]
      = queryHttps fetchOkWorld "v4" ["https://icanhazip.com/"] httpsOnlyOptions [0] :=
  (only_https_skips_dns dnsFailWorld fetchOkWorld [sampleConfig] ["https://icanhazip.com/"]
    "v4" httpsOnlyOptions [0, 1] [0] (by rfl)).1

theorem cancellation_witness :
    createQuery (fun _ => pendingPromise) abortOptions = .error (.transportFail "external abort") :=
  (cancellation_first_trigger_wins 5 extSig3 pendingPromise abortOptions (by decide) (by rfl)
    rfl rfl).2.2.2.2 3 rfl (by decide) (by decide)

theorem preaborted_witness :
    createQuery (fun _ => pendingPromise) preabortedOptions = .error (.transportFail "pre-aborted") :=
  preaborted_signal_rejects_immediately preabortedSig preabortedOptions rfl rfl
    (fun _ => pendingPromise)

theorem validator_families_witness :
    validateIp "203.0.113.10" "v4" = true ∧ validateIp "203.0.113.10" "v6" = false :=
  (validator_families_exclusive "203.0.113.10" "v4").2.1 (by decide)

theorem trim_witness :
    httpsCandidate fetchPadWorld "v4" "https://icanhazip.com/" = .ok (trimStr " 203.0.113.10\n") :=
  (results_trimmed_before_validation fetchPadWorld dnsOkWorld "v4" "https://icanhazip.com/"
    "208.67.222.222" padResp sampleQuestion "203.0.113.10").1 rfl rfl (by decide)

theorem validator_default_witness :
    validateIp "203.0.113.10" "anyfamily" = validateIp "203.0.113.10" "v4" :=
  validator_defaults_to_v4 "203.0.113.10" "anyfamily" (by decide)

/-! ### Sanity checks of the modelled validators and of the embedding -/

theorem isIPv4_model_checks :
    isIPv4 "203.0.113.10" = true ∧ isIPv4 "1.2.3.256" = false
    ∧ isIPv4 "01.2.3.4" = false ∧ isIPv4 "1.2.3.4" = true := by
  decide

theorem isIPv6_model_checks :
    isIPv6 "2001:db8::1" = true ∧ isIPv6 "::" = true
    ∧ isIPv6 "::ffff:1.2.3.4" = true ∧ isIPv6 "1:2:3:4:5:6:7:8" = true
    ∧ isIPv6 "1:2:3:4:5:6:7:8:9" = false ∧ isIPv6 "1::2::3" = false
    ∧ isIPv6 "fe80::1%eth0" = true ∧ isIPv6 "1.2.3.4" = false := by
  decide

theorem validateIp_model_checks :
    validateIp "" "v4" = false ∧ validateIp "2001:db8::1" "v6" = true
    ∧ trimStr " 203.0.113.10\n" = "203.0.113.10" := by
  decide

theorem pipeline_model_checks :
    queryHttps fetchOkWorld "v4" ["https://icanhazip.com/"] plainOptions [0]
      = .ok "203.0.113.10"
    ∧ queryDns dnsFailWorld [sampleConfig] "v4" [0, 1]
      = .error (.ipNotFound (.transportFail "208.67.220.220")) :=
  ⟨rfl, rfl⟩

end PublicIp
